import Mathlib

/-!
Verification of the WhatsApp Flows data-exchange core of the
whatsapp-cloud-api repository: the crypto envelope codec
(src/flows/crypto/encryption.ts), the response builder and request view
(src/flows/endpoint/types.ts), and the Express dispatcher
(src/flows/endpoint/express.ts).

Modelling conventions:
- JavaScript strings are `List Char`; raw bytes are `List Nat` with every
  entry below 256.
- External platform primitives (Node's crypto module, the JS builtins
  JSON.parse / JSON.stringify, and Buffer's UTF-8 decoder) are fields of
  the `JsPrims` structure and are quantified over in the theorems; the
  repository's own glue (base64 framing, UTF-8 encoding of strings fed to
  Buffer.from, IV flipping, tag splitting, signature-header handling, the
  builder, and the dispatcher control flow) is implemented concretely from
  the source.
- Fallible JS calls are `Except Unit`/`Option`: a thrown exception is the
  error case, and the dispatcher's try/catch blocks are matches on it.
-/

/-- JavaScript strings, modelled as their character sequence. -/
abbrev Str : Type := List Char

/-- Character list of a Lean string literal. -/
def chars (s : String) : Str := s.data

/-- JSON values (the shapes exchanged by the flows endpoint; numbers are
modelled as integers, which covers every payload the endpoint builds). -/
inductive Json where
  | null : Json
  | bool (b : Bool) : Json
  | num (n : Int) : Json
  | str (s : Str) : Json
  | arr (elems : List Json) : Json
  | obj (fields : List (Str × Json)) : Json

/-- A JavaScript object as an ordered field list with unique keys intended;
lookup returns the first binding of the key. -/
def objLookup : List (Str × Json) → Str → Option Json
  | [], _ => none
  | (k, v) :: rest, key => if k = key then some v else objLookup rest key

/-- JS property assignment: overwrite the existing binding of the key in
place, or append a fresh binding at the end. -/
def objSet : List (Str × Json) → Str → Json → List (Str × Json)
  | [], k, v => [(k, v)]
  | (k', v') :: rest, k, v =>
      if k' = k then (k, v) :: rest else (k', v') :: objSet rest k v

/-- JS object spread: assign every field of the second object into the
first, in order, later bindings overriding earlier ones. -/
def objSpread (base fields : List (Str × Json)) : List (Str × Json) :=
  fields.foldl (fun acc kv => objSet acc kv.1 kv.2) base

/-- JS truthiness of a JSON value (undefined is handled by `Option`). -/
def jsTruthy : Json → Bool
  | .null => false
  | .bool b => b
  | .num n => decide (n ≠ 0)
  | .str s => decide (s ≠ [])
  | .arr _ => true
  | .obj _ => true

/-- Truthiness of a possibly-absent property (absent reads as undefined). -/
def jsTruthyOpt : Option Json → Bool
  | none => false
  | some v => jsTruthy v

/-! ## UTF-8 encoding (Buffer.from(string, 'utf-8')) -/

/-- UTF-8 encoding of a single character's code point. -/
def utf8EncodeChar (c : Char) : List Nat :=
  let n := c.toNat
  if n < 128 then [n]
  else if n < 2048 then [192 + n / 64, 128 + n % 64]
  else if n < 65536 then [224 + n / 4096, 128 + n / 64 % 64, 128 + n % 64]
  else [240 + n / 262144, 128 + n / 4096 % 64, 128 + n / 64 % 64, 128 + n % 64]

/-- UTF-8 encoding of a string, one character at a time. -/
def utf8Encode : Str → List Nat
  | [] => []
  | c :: cs => utf8EncodeChar c ++ utf8Encode cs

/-! ## Base64 (Buffer#toString('base64') and Buffer.from(_, 'base64')) -/

/-- The standard base64 alphabet in index order. -/
def b64Alphabet : List Char :=
  chars "ABCDEFGHIJKLMNOPQRSTUVWXYZabcdefghijklmnopqrstuvwxyz0123456789+/"

/-- Digit character for a sextet value. -/
def b64Char (n : Nat) : Char := b64Alphabet.getD n 'A'

/-- Position of a character in a list, if present. -/
def b64Index : List Char → Char → Option Nat
  | [], _ => none
  | c :: rest, x => if c = x then some 0 else (b64Index rest x).map (· + 1)

/-- Sextet value of a base64 digit character; none for padding and other
non-alphabet characters, which the decoder skips. -/
def b64Value (c : Char) : Option Nat := b64Index b64Alphabet c

/-- Encode bytes three at a time into four base64 digits, padding the final
partial group with '=' as Node's Buffer encoder does. -/
def base64EncodeCore : List Nat → Str
  | [] => []
  | [b1] => [b64Char (b1 / 4), b64Char (b1 % 4 * 16), '=', '=']
  | [b1, b2] => [b64Char (b1 / 4), b64Char (b1 % 4 * 16 + b2 / 16), b64Char (b2 % 16 * 4), '=']
  | b1 :: b2 :: b3 :: rest =>
      b64Char (b1 / 4) :: b64Char (b1 % 4 * 16 + b2 / 16) ::
      b64Char (b2 % 16 * 4 + b3 / 64) :: b64Char (b3 % 64) ::
      base64EncodeCore rest

/-- Base64 rendering of a byte list. -/
def base64Encode (bytes : List Nat) : Str := base64EncodeCore bytes

/-- Reassemble bytes from a stream of sextet values, four at a time, with
Node's lenient handling of a trailing partial group. -/
def base64DecodeCore : List Nat → List Nat
  | s1 :: s2 :: s3 :: s4 :: rest =>
      (s1 * 4 + s2 / 16) :: (s2 % 16 * 16 + s3 / 4) :: (s3 % 4 * 64 + s4) ::
      base64DecodeCore rest
  | [s1, s2, s3] => [s1 * 4 + s2 / 16, s2 % 16 * 16 + s3 / 4]
  | [s1, s2] => [s1 * 4 + s2 / 16]
  | _ => []

/-- Decode a base64 string, skipping padding and foreign characters as
Node's Buffer.from(_, 'base64') does. -/
def base64Decode (s : Str) : List Nat := base64DecodeCore (s.filterMap b64Value)

/-! ## External platform primitives

Node's crypto module and the JS JSON/UTF-8 builtins are outside the
repository; the embedding quantifies over them. -/

/-- Decrypted request payload (src/flows/crypto/types.ts,
DecryptedFlowRequest). The action is an unvalidated string, exactly as the
unchecked cast of JSON.parse's output leaves it. -/
structure DecryptedFlowRequest where
  version : Str
  action : Str
  screen : Option Str
  data : List (Str × Json)
  flow_token : Str
  flow_token_signature : Option Str

/-- External JS/Node primitives used by the flows core. Every fallible call
returns an Option whose none is a thrown exception. -/
structure JsPrims where
  /-- JSON.parse on a whole document. -/
  parseJson : Str → Option Json
  /-- JSON.stringify. -/
  stringifyJson : Json → Str
  /-- crypto.createHmac('sha256', secret).update(payload).digest('hex'):
  secret, then payload, to the lowercase hex digest. -/
  hmacSha256Hex : Str → Str → Str
  /-- crypto.privateDecrypt with RSA-OAEP/SHA-256: PEM key and ciphertext
  bytes to plaintext bytes, none on any failure. -/
  rsaOaepSha256Decrypt : Str → List Nat → Option (List Nat)
  /-- AES-128-GCM encryption: key, iv, plaintext to (ciphertext, tag). -/
  aesGcmEncrypt : List Nat → List Nat → List Nat → List Nat × List Nat
  /-- AES-128-GCM decryption with tag verification: key, iv, ciphertext,
  tag to plaintext, none on any failure (bad tag, bad key, bad lengths). -/
  aesGcmDecrypt : List Nat → List Nat → List Nat → List Nat → Option (List Nat)
  /-- Buffer#toString('utf-8'), total (replacement characters). -/
  utf8Decode : List Nat → Str
  /-- JSON.parse of the decrypted plaintext followed by the source's
  unchecked cast to DecryptedFlowRequest; none is a parse exception. No
  field of the result is validated by the repository. -/
  parseFlowReq : Str → Option DecryptedFlowRequest

/-! ## Signature validation (src/flows/crypto/encryption.ts, validateSignature) -/

/-- The fixed header scheme tag 'sha256='. -/
def sigSchemeTag : Str := chars "sha256="

/-- crypto.timingSafeEqual: throws a RangeError when the buffers differ in
byte length, otherwise reports byte equality. -/
def timingSafeEqual (a b : List Nat) : Except Unit Bool :=
  if a.length = b.length then .ok (decide (a = b)) else .error ()

/-- validateSignature from src/flows/crypto/encryption.ts: reject a missing
header or one without the 'sha256=' scheme tag, then compare the rest of
the header against the computed hex digest with crypto.timingSafeEqual over
the UTF-8 bytes of both strings. -/
def validateSignature (hmac : Str → Str → Str) (payload : Str)
    (signature : Option Str) (appSecret : Str) : Except Unit Bool :=
  match signature with
  | none => .ok false
  | some s =>
    if s = [] then .ok false
    else if ¬ sigSchemeTag.isPrefixOf s then .ok false
    else
      timingSafeEqual (utf8Encode (s.drop 7)) (utf8Encode (hmac appSecret payload))

/-! ## Envelope decryption and response encryption -/

/-- AUTH_TAG_LENGTH from src/flows/crypto/encryption.ts. -/
def authTagLength : Nat := 16

/-- Buffer#subarray(-n): the final n bytes (the whole buffer when shorter). -/
def takeLastN (n : Nat) (l : List Nat) : List Nat := l.drop (l.length - n)

/-- Buffer#subarray(0, -n): everything before the final n bytes. -/
def dropLastN (n : Nat) (l : List Nat) : List Nat := l.take (l.length - n)

/-- Result of decryptRequest (src/flows/crypto/types.ts, DecryptionResult). -/
structure DecryptionResult where
  decryptedData : DecryptedFlowRequest
  aesKey : List Nat
  iv : List Nat

/-- Read one of the three envelope fields off the request body. A missing
or non-string field makes the subsequent Buffer.from call throw inside
decryptRequest's try scope, so it is folded into the generic failure. -/
def getStrField (body : Json) (key : Str) : Except Unit Str :=
  match body with
  | .obj fields =>
    match objLookup fields key with
    | some (.str s) => .ok s
    | _ => .error ()
  | _ => .error ()

/-- decryptRequest from src/flows/crypto/encryption.ts: base64-decode the
three envelope fields, RSA-OAEP-decrypt the AES key, split the flow data
into body and trailing 16-byte tag, AES-128-GCM-decrypt, and parse the
UTF-8 plaintext. Every failure is the same generic error. -/
def decryptRequest (P : JsPrims) (body : Json) (privateKeyPem : Str) :
    Except Unit DecryptionResult :=
  match getStrField body (chars "encrypted_flow_data") with
  | .error _ => .error ()
  | .ok efd =>
    match getStrField body (chars "encrypted_aes_key") with
    | .error _ => .error ()
    | .ok eak =>
      match getStrField body (chars "initial_vector") with
      | .error _ => .error ()
      | .ok ivB64 =>
        let flowData := base64Decode efd
        let iv := base64Decode ivB64
        let encryptedKey := base64Decode eak
        match P.rsaOaepSha256Decrypt privateKeyPem encryptedKey with
        | none => .error ()
        | some aesKey =>
          let encryptedBody := dropLastN authTagLength flowData
          let authTag := takeLastN authTagLength flowData
          match P.aesGcmDecrypt aesKey iv encryptedBody authTag with
          | none => .error ()
          | some decrypted =>
            match P.parseFlowReq (P.utf8Decode decrypted) with
            | none => .error ()
            | some decryptedData => .ok ⟨decryptedData, aesKey, iv⟩

/-- The flipped IV of encryptResponse: every byte XOR-ed with 0xFF, written
back into a fresh byte buffer. -/
def flipIv (iv : List Nat) : List Nat := iv.map (fun b => Nat.xor b 255 % 256)

/-- encryptResponse from src/flows/crypto/encryption.ts: AES-128-GCM over
the UTF-8 JSON rendering of the response, keyed with the request's AES key
and the flipped IV, with the 16-byte tag appended and the whole base64d. -/
def encryptResponse (P : JsPrims) (response : Json) (aesKey iv : List Nat) : Str :=
  let flippedIv := flipIv iv
  let enc := P.aesGcmEncrypt aesKey flippedIv (utf8Encode (P.stringifyJson response))
  base64Encode (enc.1 ++ enc.2)

/-- The response decryption procedure of the spec's response round-trip
(mirrored by the repository's crypto tests): base64-decode, split off the
trailing 16-byte tag, AES-128-GCM-decrypt under the flipped IV, and parse
the UTF-8 plaintext as JSON. -/
def decryptResponse (P : JsPrims) (encryptedB64 : Str) (aesKey iv : List Nat) :
    Option Json :=
  let bytes := base64Decode encryptedB64
  let body := dropLastN authTagLength bytes
  let tag := takeLastN authTagLength bytes
  match P.aesGcmDecrypt aesKey (flipIv iv) body tag with
  | none => none
  | some plain => P.parseJson (P.utf8Decode plain)

/-! ## Response builder and request view (src/flows/endpoint/types.ts) -/

/-- The builder's pending payload: a screen id and its data record. -/
structure ResponseData where
  screen : Str
  data : List (Str × Json)

/-- FlowResponseBuilder: the flow token it was created for and the mutable
pending payload, threaded explicitly. -/
structure FlowResponseBuilder where
  flowToken : Str
  responseData : ResponseData

/-- A freshly constructed builder: screen '' and empty data. -/
def FlowResponseBuilder.create (flowToken : Str) : FlowResponseBuilder :=
  ⟨flowToken, ⟨[], []⟩⟩

/-- goToScreen: replace the whole pending payload with the target screen
and its data (empty when the data argument is omitted). -/
def FlowResponseBuilder.goToScreen (b : FlowResponseBuilder) (screenId : Str)
    (data : Option (List (Str × Json))) : FlowResponseBuilder :=
  { b with responseData := ⟨screenId, data.getD []⟩ }

/-- close: replace the pending payload with the completion shape, the
builder's flow token spread together with the caller's params. -/
def FlowResponseBuilder.close (b : FlowResponseBuilder)
    (params : Option (List (Str × Json))) : FlowResponseBuilder :=
  { b with
    responseData :=
      ⟨chars "SUCCESS",
        [(chars "extension_message_response",
          .obj [(chars "params",
            .obj (objSpread [(chars "flow_token", .str b.flowToken)]
              (params.getD [])))])]⟩ }

/-- withError: spread error_message into the current pending payload's
data, leaving the screen alone. -/
def FlowResponseBuilder.withError (b : FlowResponseBuilder) (errorMessage : Str) :
    FlowResponseBuilder :=
  { b with
    responseData :=
      ⟨b.responseData.screen,
        objSet b.responseData.data (chars "error_message") (.str errorMessage)⟩ }

/-- build: the pending payload snapshot. -/
def FlowResponseBuilder.build (b : FlowResponseBuilder) : ResponseData :=
  b.responseData

/-- The JSON object a built payload serializes as. -/
def ResponseData.toJson (rd : ResponseData) : Json :=
  .obj [(chars "screen", .str rd.screen), (chars "data", .obj rd.data)]

/-- The request view handed to the application handler (FlowRequest). -/
structure FlowRequest where
  version : Str
  action : Str
  screen : Option Str
  data : List (Str × Json)
  flowToken : Str
  flowTokenSignature : Option Str

/-- respond(): a fresh builder bound to the request's flow token. -/
def FlowRequest.respond (r : FlowRequest) : FlowResponseBuilder :=
  FlowResponseBuilder.create r.flowToken

/-- createFlowRequest: repackage the decrypted payload as the view. -/
def createFlowRequest (d : DecryptedFlowRequest) : FlowRequest :=
  ⟨d.version, d.action, d.screen, d.data, d.flow_token, d.flow_token_signature⟩

/-- HEALTH_CHECK_RESPONSE from src/flows/endpoint/types.ts. -/
def healthCheckResponse : Json :=
  .obj [(chars "data", .obj [(chars "status", .str (chars "active"))])]

/-- ERROR_ACK_RESPONSE from src/flows/endpoint/types.ts. -/
def errorAckResponse : Json :=
  .obj [(chars "data", .obj [(chars "acknowledged", .bool true)])]

/-! ## Express dispatcher (src/flows/endpoint/express.ts) -/

/-- Endpoint configuration; the handler returns a builder or throws a value
of the error type, and onError invocations are recorded in the outcome. -/
structure FlowEndpointOptions (ε : Type) where
  privateKey : Str
  appSecret : Option Str
  onRequest : FlowRequest → Except ε FlowResponseBuilder
  acknowledgeErrors : Option Bool

/-- An inbound POST: the raw body bytes as received, and the
x-hub-signature-256 header if present. -/
structure IncomingRequest where
  rawBody : Str
  signatureHeader : Option Str

/-- An exception reaching the dispatcher's outer catch: either the
RangeError crypto.timingSafeEqual throws on length mismatch, or whatever
the application handler threw. -/
inductive Caught (ε : Type) where
  | rangeErr : Caught ε
  | handlerErr (e : ε) : Caught ε

/-- The observable outcome of one dispatch: the HTTP reply, how many times
the handler ran, and every onError invocation with its request view. -/
structure DispatchOutcome (ε : Type) where
  status : Nat
  body : Str
  textPlain : Bool
  handlerCalls : Nat
  errorCalls : List (Caught ε × Option FlowRequest)

/-- The signature step of the Express POST handler: skipped without an app
secret, otherwise validateSignature over JSON.stringify of the parsed body
(not over the raw received bytes). -/
def sigCheck {ε : Type} (P : JsPrims) (opts : FlowEndpointOptions ε)
    (bodyJson : Json) (req : IncomingRequest) : Except Unit Bool :=
  match opts.appSecret with
  | none => .ok true
  | some secret =>
      validateSignature P.hmacSha256Hex (P.stringifyJson bodyJson)
        req.signatureHeader secret

/-- The POST handler installed by createFlowEndpoint: body parsing by
express.json(), the optional signature check, decryption with its 421
catch, the ping and error-acknowledgment short circuits, the handler call,
response encryption, and the outer catch mapping any uncaught exception to
onError plus a fixed 500 reply. -/
def handlePost {ε : Type} (P : JsPrims) (opts : FlowEndpointOptions ε)
    (req : IncomingRequest) : DispatchOutcome ε :=
  match P.parseJson req.rawBody with
  | none => ⟨400, chars "Bad Request", false, 0, []⟩
  | some bodyJson =>
    match sigCheck P opts bodyJson req with
    | .error _ => ⟨500, chars "Internal server error", false, 0, [(.rangeErr, none)]⟩
    | .ok false => ⟨401, chars "Invalid signature", false, 0, []⟩
    | .ok true =>
      match decryptRequest P bodyJson opts.privateKey with
      | .error _ => ⟨421, chars "Decryption failed", false, 0, []⟩
      | .ok res =>
        if res.decryptedData.action = chars "ping" then
          ⟨200, encryptResponse P healthCheckResponse res.aesKey res.iv, true, 0, []⟩
        else
          let flowRequest := createFlowRequest res.decryptedData
          if jsTruthyOpt (objLookup flowRequest.data (chars "error")) &&
              (opts.acknowledgeErrors != some false) then
            ⟨200, encryptResponse P errorAckResponse res.aesKey res.iv, true, 0, []⟩
          else
            match opts.onRequest flowRequest with
            | .error e =>
                ⟨500, chars "Internal server error", false, 1,
                  [(.handlerErr e, some flowRequest)]⟩
            | .ok builder =>
                ⟨200, encryptResponse P builder.build.toJson res.aesKey res.iv,
                  true, 1, []⟩

/-! ## Concrete instantiations of the external primitives

Small concrete stand-ins for the platform primitives, each exhibiting a
behaviour the real primitive has on the specific inputs used (a 64-char
lowercase hex digest, a JSON document with leading whitespace, a cipher
that round-trips). They ground the counterexamples and witnesses. -/

/-- A well-formed lowercase hex digest value (64 characters). -/
def constHexDigest : Str := List.replicate 64 'a'

/-- An HMAC stand-in returning a fixed well-formed digest. -/
def toyHmacConst : Str → Str → Str := fun _ _ => constHexDigest

/-- An HMAC stand-in distinguishing the raw document ' 0' from its
re-serialization '0', as the real HMAC does on distinct byte strings. -/
def toyHmacC1 : Str → Str → Str := fun _ p =>
  if p = chars " 0" then List.replicate 64 'a' else List.replicate 64 'b'

/-- A decrypted payload whose action is ping yet carrying a screen, as
JSON.parse yields on such a plaintext. -/
def pingWithScreenRequest : DecryptedFlowRequest :=
  ⟨chars "3.0", chars "ping", some (chars "X"), [], chars "t", none⟩

/-- An ordinary INIT payload without a screen or error flag. -/
def initRequest : DecryptedFlowRequest :=
  ⟨chars "3.0", chars "INIT", none, [], chars "t1", none⟩

/-- A parsed envelope body carrying the three required fields. -/
def envBody : Json :=
  .obj [(chars "encrypted_flow_data", .str []),
    (chars "encrypted_aes_key", .str []),
    (chars "initial_vector", .str [])]

/-- Primitives under which decryption succeeds and the plaintext parses to
the given payload; the cipher keeps the plaintext and a zero tag. -/
def toyPrimsOk (d : DecryptedFlowRequest) : JsPrims where
  parseJson := fun _ => some envBody
  stringifyJson := fun _ => []
  hmacSha256Hex := fun _ _ => constHexDigest
  rsaOaepSha256Decrypt := fun _ _ => some (List.replicate 16 0)
  aesGcmEncrypt := fun _ _ m => (m, List.replicate 16 0)
  aesGcmDecrypt := fun _ _ _ _ => some []
  utf8Decode := fun _ => []
  parseFlowReq := fun _ => some d

/-- Primitives under which decryption always throws (the parsed body has
none of the envelope fields). -/
def toyPrimsFail : JsPrims where
  parseJson := fun _ => some (.obj [])
  stringifyJson := fun _ => []
  hmacSha256Hex := fun _ _ => constHexDigest
  rsaOaepSha256Decrypt := fun _ _ => none
  aesGcmEncrypt := fun _ _ m => (m, List.replicate 16 0)
  aesGcmDecrypt := fun _ _ _ _ => none
  utf8Decode := fun _ => []
  parseFlowReq := fun _ => none

/-- The document ' 0' (leading whitespace) parses to the JSON number 0,
which re-serializes to '0': a raw body JSON.stringify does not reproduce. -/
def toyPrimsC1 : JsPrims where
  parseJson := fun s => if s = chars " 0" then some (.num 0) else none
  stringifyJson := fun _ => chars "0"
  hmacSha256Hex := toyHmacC1
  rsaOaepSha256Decrypt := fun _ _ => none
  aesGcmEncrypt := fun _ _ m => (m, List.replicate 16 0)
  aesGcmDecrypt := fun _ _ _ _ => none
  utf8Decode := fun _ => []
  parseFlowReq := fun _ => none

/-- The response payload used to witness the response round-trip. -/
def payloadC3 : Json :=
  .obj [(chars "screen", .str (chars "S")), (chars "data", .obj [])]

/-- Primitives witnessing the response round-trip: serialization maps the
payload to 's' and back, and the cipher keeps the plaintext with a zero
tag that decryption verifies. -/
def toyPrimsC3 : JsPrims where
  parseJson := fun s => if s = chars "s" then some payloadC3 else none
  stringifyJson := fun _ => chars "s"
  hmacSha256Hex := fun _ _ => constHexDigest
  rsaOaepSha256Decrypt := fun _ _ => none
  aesGcmEncrypt := fun _ _ m => (m, List.replicate 16 0)
  aesGcmDecrypt := fun _ _ c t => if t = List.replicate 16 0 then some c else none
  utf8Decode := fun _ => chars "s"
  parseFlowReq := fun _ => none

/-- Endpoint options whose handler always throws (error type Nat). -/
def optsThrow : FlowEndpointOptions Nat :=
  ⟨[], none, fun _ => .error 7, none⟩

/-- Endpoint options with an app secret configured and a throwing handler. -/
def optsWithSecret : FlowEndpointOptions Nat :=
  ⟨[], some (chars "secret"), fun _ => .error 7, none⟩

/-- Endpoint options whose handler returns the pristine builder. -/
def optsPristine : FlowEndpointOptions Unit :=
  ⟨[], none, fun r => .ok r.respond, none⟩

/-! ## Glue lemmas: base64, tag splitting, UTF-8 on ASCII -/

/-- Every sextet value maps to its own alphabet character and back. -/
theorem b64Value_b64Char : ∀ n, n < 64 → b64Value (b64Char n) = some n := by decide

/-- Padding characters are skipped by the decoder. -/
theorem b64Value_pad : b64Value '=' = none := by decide

/-- Encoding bytes and decoding the digits returns the bytes. -/
theorem base64_roundTrip : ∀ l : List Nat, (∀ b ∈ l, b < 256) →
    base64Decode (base64Encode l) = l := by
  intro l
  unfold base64Encode base64Decode
  induction l using base64EncodeCore.induct with
  | case1 =>
      intro _
      simp [base64EncodeCore, base64DecodeCore]
  | case2 b1 =>
      intro h
      have hb1 : b1 < 256 := h b1 (by simp)
      have h1 := b64Value_b64Char (b1 / 4) (by omega)
      have h2 := b64Value_b64Char (b1 % 4 * 16) (by omega)
      simp [base64EncodeCore, List.filterMap_cons, h1, h2, b64Value_pad,
        base64DecodeCore]
      omega
  | case3 b1 b2 =>
      intro h
      have hb1 : b1 < 256 := h b1 (by simp)
      have hb2 : b2 < 256 := h b2 (by simp)
      have h1 := b64Value_b64Char (b1 / 4) (by omega)
      have h2 := b64Value_b64Char (b1 % 4 * 16 + b2 / 16) (by omega)
      have h3 := b64Value_b64Char (b2 % 16 * 4) (by omega)
      simp [base64EncodeCore, List.filterMap_cons, h1, h2, h3, b64Value_pad,
        base64DecodeCore]
      omega
  | case4 b1 b2 b3 rest ih =>
      intro h
      have hb1 : b1 < 256 := h b1 (by simp)
      have hb2 : b2 < 256 := h b2 (by simp)
      have hb3 : b3 < 256 := h b3 (by simp)
      have h1 := b64Value_b64Char (b1 / 4) (by omega)
      have h2 := b64Value_b64Char (b1 % 4 * 16 + b2 / 16) (by omega)
      have h3 := b64Value_b64Char (b2 % 16 * 4 + b3 / 64) (by omega)
      have h4 := b64Value_b64Char (b3 % 64) (by omega)
      have hrest := ih (fun b hb => h b (by simp [hb]))
      simp [base64EncodeCore, List.filterMap_cons, h1, h2, h3, h4,
        base64DecodeCore, hrest]
      refine ⟨by omega, by omega, by omega⟩

/-- Dropping a trailing block of known length recovers the front part. -/
theorem dropLastN_append (n : Nat) (a b : List Nat) (hb : b.length = n) :
    dropLastN n (a ++ b) = a := by
  unfold dropLastN
  rw [List.length_append, hb, Nat.add_sub_cancel,
    List.take_append_of_le_length (Nat.le_refl _), List.take_length]

/-- Taking a trailing block of known length recovers that block. -/
theorem takeLastN_append (n : Nat) (a b : List Nat) (hb : b.length = n) :
    takeLastN n (a ++ b) = b := by
  unfold takeLastN
  rw [List.length_append, hb, Nat.add_sub_cancel, ← Nat.add_zero a.length,
    List.drop_append, List.drop_zero]

/-- ASCII characters encode to their own single code unit. -/
theorem utf8EncodeChar_ascii {c : Char} (h : c.toNat < 128) :
    utf8EncodeChar c = [c.toNat] := by
  unfold utf8EncodeChar
  simp [h]

/-- The UTF-8 bytes of an all-ASCII string are its code points. -/
theorem utf8Encode_ascii : ∀ s : Str, (∀ c ∈ s, c.toNat < 128) →
    utf8Encode s = s.map Char.toNat := by
  intro s
  induction s with
  | nil => intro _; rfl
  | cons c cs ih =>
      intro h
      have hc : c.toNat < 128 := h c (by simp)
      simp [utf8Encode, utf8EncodeChar_ascii hc, ih (fun d hd => h d (by simp [hd]))]

/-- A character's encoding is never empty, and its first byte is the code
point for ASCII but at least 128 otherwise. -/
theorem utf8EncodeChar_head (c : Char) :
    ∃ t, (c.toNat < 128 ∧ utf8EncodeChar c = [c.toNat]) ∨
      (128 ≤ c.toNat ∧ ∃ x, utf8EncodeChar c = x :: t ∧ 128 ≤ x) := by
  unfold utf8EncodeChar
  by_cases h1 : c.toNat < 128
  · exact ⟨[], Or.inl ⟨h1, by simp [h1]⟩⟩
  · by_cases h2 : c.toNat < 2048
    · refine ⟨[128 + c.toNat % 64], Or.inr ⟨by omega, 192 + c.toNat / 64, by simp [h1, h2], by omega⟩⟩
    · by_cases h3 : c.toNat < 65536
      · refine ⟨[128 + c.toNat / 64 % 64, 128 + c.toNat % 64],
          Or.inr ⟨by omega, 224 + c.toNat / 4096, by simp [h1, h2, h3], by omega⟩⟩
      · refine ⟨[128 + c.toNat / 4096 % 64, 128 + c.toNat / 64 % 64, 128 + c.toNat % 64],
          Or.inr ⟨by omega, 240 + c.toNat / 262144, by simp [h1, h2, h3], by omega⟩⟩

/-- Characters with equal code points are equal. -/
theorem char_toNat_inj {c d : Char} (h : c.toNat = d.toNat) : c = d := by
  have := Char.ofNat_toNat c
  rw [h, Char.ofNat_toNat d] at this
  exact this.symm

/-- A string whose UTF-8 bytes agree with those of an all-ASCII string is
that string. -/
theorem utf8Encode_inj_ascii : ∀ a d : Str, (∀ c ∈ d, c.toNat < 128) →
    utf8Encode a = utf8Encode d → a = d := by
  intro a
  induction a with
  | nil =>
      intro d hd h
      cases d with
      | nil => rfl
      | cons e es =>
          exfalso
          have he : e.toNat < 128 := hd e (by simp)
          simp [utf8Encode, utf8EncodeChar_ascii he] at h
  | cons c cs ih =>
      intro d hd h
      cases d with
      | nil =>
          exfalso
          obtain ⟨t, ht⟩ := utf8EncodeChar_head c
          rcases ht with ⟨_, heq⟩ | ⟨_, x, heq, _⟩ <;>
            simp [utf8Encode, heq] at h
      | cons e es =>
          have he : e.toNat < 128 := hd e (by simp)
          obtain ⟨t, ht⟩ := utf8EncodeChar_head c
          rcases ht with ⟨hc, heq⟩ | ⟨hc, x, heq, hx⟩
          · rw [utf8Encode, utf8Encode, heq, utf8EncodeChar_ascii he] at h
            simp at h
            exact congrArg₂ (· :: ·) (char_toNat_inj h.1)
              (ih es (fun d' hd' => hd d' (by simp [hd'])) h.2)
          · exfalso
            rw [utf8Encode, utf8Encode, heq, utf8EncodeChar_ascii he] at h
            simp at h
            omega

/-! ## Object lemmas -/

/-- Assignment makes the key read back as the assigned value. -/
theorem objLookup_objSet_self : ∀ (o : List (Str × Json)) (k : Str) (v : Json),
    objLookup (objSet o k v) k = some v := by
  intro o k v
  induction o with
  | nil => simp [objSet, objLookup]
  | cons kv rest ih =>
      by_cases h : kv.1 = k
      · simp [objSet, h, objLookup]
      · simp [objSet, h, objLookup, ih]

/-- Assignment leaves other keys unchanged. -/
theorem objLookup_objSet_other : ∀ (o : List (Str × Json)) (k k' : Str) (v : Json),
    k' ≠ k → objLookup (objSet o k v) k' = objLookup o k' := by
  intro o k k' v hk
  have hkk : ¬ (k = k') := fun he => hk he.symm
  induction o with
  | nil => simp [objSet, objLookup, hkk]
  | cons kv rest ih =>
      by_cases h : kv.1 = k
      · simp [objSet, h, objLookup, hkk]
      · simp [objSet, h, objLookup, ih]

/-- Spreading fields none of which bind the key leaves its reading alone. -/
theorem objSpread_lookup_of_not_mem :
    ∀ (p o : List (Str × Json)) (k : Str), (∀ kv ∈ p, kv.1 ≠ k) →
    objLookup (objSpread o p) k = objLookup o k := by
  intro p
  induction p with
  | nil => intro o k _; rfl
  | cons kv rest ih =>
      intro o k h
      have hk : kv.1 ≠ k := h kv (by simp)
      have := ih (objSet o kv.1 kv.2) k (fun kv' h' => h kv' (by simp [h']))
      calc objLookup (objSpread o (kv :: rest)) k
          = objLookup (objSpread (objSet o kv.1 kv.2) rest) k := rfl
        _ = objLookup (objSet o kv.1 kv.2) k := this
        _ = objLookup o k := objLookup_objSet_other _ _ _ _ (fun he => hk he.symm)

/-- Spreading a duplicate-free field list makes each of its keys read back
as its value. -/
theorem objSpread_lookup_of_lookup :
    ∀ (p o : List (Str × Json)) (k : Str) (v : Json),
    (p.map Prod.fst).Nodup → objLookup p k = some v →
    objLookup (objSpread o p) k = some v := by
  intro p
  induction p with
  | nil => intro o k v _ h; simp [objLookup] at h
  | cons kv rest ih =>
      intro o k v hnodup h
      have hnodup' : (rest.map Prod.fst).Nodup := (List.nodup_cons.mp hnodup).2
      by_cases hk : kv.1 = k
      · have hv : v = kv.2 := by
          simp [objLookup, hk] at h
          exact h.symm
        have hnotin : ∀ kv' ∈ rest, kv'.1 ≠ k := by
          intro kv' h' he
          exact (List.nodup_cons.mp hnodup).1 (hk ▸ he ▸ List.mem_map_of_mem Prod.fst h')
        calc objLookup (objSpread o (kv :: rest)) k
            = objLookup (objSpread (objSet o kv.1 kv.2) rest) k := rfl
          _ = objLookup (objSet o kv.1 kv.2) k :=
              objSpread_lookup_of_not_mem rest _ k hnotin
          _ = some kv.2 := by rw [hk]; exact objLookup_objSet_self _ _ _
          _ = some v := by rw [hv]
      · have h' : objLookup rest k = some v := by
          simpa [objLookup, hk] using h
        exact ih (objSet o kv.1 kv.2) k v hnodup' h'

/-! ## Claim theorems -/

/-- C7: whenever the request decrypts to an action of 'ping', the
dispatcher replies 200 text/plain with the encryption of the fixed health
payload (data.status = active) and never invokes the application handler
(handler call count stays 0). -/
theorem handlePost_ping {ε : Type} (P : JsPrims) (opts : FlowEndpointOptions ε)
    (req : IncomingRequest) (bodyJson : Json) (res : DecryptionResult)
    (hparse : P.parseJson req.rawBody = some bodyJson)
    (hsig : sigCheck P opts bodyJson req = .ok true)
    (hdec : decryptRequest P bodyJson opts.privateKey = .ok res)
    (hping : res.decryptedData.action = chars "ping") :
    handlePost P opts req =
      ⟨200, encryptResponse P healthCheckResponse res.aesKey res.iv, true, 0, []⟩ := by
  unfold handlePost
  simp [hparse, hsig, hdec, hping]

/-- C7 witness: a concrete ping request is answered by the encrypted health
payload with the handler never called. -/
theorem handlePost_ping_witness :
    handlePost (toyPrimsOk pingWithScreenRequest) optsThrow ⟨[], none⟩ =
      ⟨200,
        encryptResponse (toyPrimsOk pingWithScreenRequest) healthCheckResponse
          (List.replicate 16 0) [],
        true, 0, []⟩ :=
  handlePost_ping (toyPrimsOk pingWithScreenRequest) optsThrow ⟨[], none⟩ envBody
    ⟨pingWithScreenRequest, List.replicate 16 0, []⟩ rfl rfl rfl rfl

/-- C4: whenever decryption fails, for any reason at all, the dispatcher's
reply is the one fixed 421 outcome with body 'Decryption failed' and the
application handler is never invoked; the failure reaches the caller as
this single generic status with no distinguishing detail. -/
theorem handlePost_undecryptable {ε : Type} (P : JsPrims)
    (opts : FlowEndpointOptions ε) (req : IncomingRequest) (bodyJson : Json)
    (hparse : P.parseJson req.rawBody = some bodyJson)
    (hsig : sigCheck P opts bodyJson req = .ok true)
    (hdec : decryptRequest P bodyJson opts.privateKey = .error ()) :
    handlePost P opts req = ⟨421, chars "Decryption failed", false, 0, []⟩ := by
  unfold handlePost
  simp [hparse, hsig, hdec]

/-- C4 witness: a concrete request whose envelope cannot be decrypted gets
the fixed 421 reply and the handler never runs. -/
theorem handlePost_undecryptable_witness :
    handlePost toyPrimsFail optsThrow ⟨[], none⟩ =
      ⟨421, chars "Decryption failed", false, 0, []⟩ :=
  handlePost_undecryptable toyPrimsFail optsThrow ⟨[], none⟩ (.obj []) rfl rfl rfl

/-- C6: a handler exception makes the dispatcher reply 500 with body
exactly 'Internal server error' and invoke the error callback exactly once
with the thrown error and the request view; a fault before the view is
constructed (the RangeError validateSignature can raise) also replies the
fixed 500 and passes an undefined view to the callback. -/
theorem handlePost_handlerFault :
    (∀ (ε : Type) (P : JsPrims) (opts : FlowEndpointOptions ε)
      (req : IncomingRequest) (bodyJson : Json) (res : DecryptionResult) (e : ε),
      P.parseJson req.rawBody = some bodyJson →
      sigCheck P opts bodyJson req = .ok true →
      decryptRequest P bodyJson opts.privateKey = .ok res →
      res.decryptedData.action ≠ chars "ping" →
      (jsTruthyOpt (objLookup (createFlowRequest res.decryptedData).data (chars "error")) &&
        (opts.acknowledgeErrors != some false)) = false →
      opts.onRequest (createFlowRequest res.decryptedData) = .error e →
      handlePost P opts req =
        ⟨500, chars "Internal server error", false, 1,
          [(.handlerErr e, some (createFlowRequest res.decryptedData))]⟩)
    ∧ (∀ (ε : Type) (P : JsPrims) (opts : FlowEndpointOptions ε)
      (req : IncomingRequest) (bodyJson : Json),
      P.parseJson req.rawBody = some bodyJson →
      sigCheck P opts bodyJson req = .error () →
      handlePost P opts req =
        ⟨500, chars "Internal server error", false, 0, [(.rangeErr, none)]⟩) := by
  constructor
  · intro ε P opts req bodyJson res e hparse hsig hdec hping hack honreq
    unfold handlePost
    simp [hparse, hsig, hdec, hping, hack, honreq]
  · intro ε P opts req bodyJson hparse hsig
    unfold handlePost
    simp [hparse, hsig]

/-- C6 witness: a concrete throwing handler produces the fixed 500 with one
callback invocation carrying the error and the view, and a concrete
signature-length RangeError produces the fixed 500 with an undefined view. -/
theorem handlePost_handlerFault_witness :
    handlePost (toyPrimsOk initRequest) optsThrow ⟨[], none⟩ =
      ⟨500, chars "Internal server error", false, 1,
        [(.handlerErr 7, some (createFlowRequest initRequest))]⟩
    ∧ handlePost (toyPrimsOk initRequest) optsWithSecret ⟨[], some sigSchemeTag⟩ =
      ⟨500, chars "Internal server error", false, 0, [(.rangeErr, none)]⟩ :=
  ⟨handlePost_handlerFault.1 Nat (toyPrimsOk initRequest) optsThrow ⟨[], none⟩
      envBody ⟨initRequest, List.replicate 16 0, []⟩ 7 rfl rfl rfl
      (by decide) rfl rfl,
    handlePost_handlerFault.2 Nat (toyPrimsOk initRequest) optsWithSecret
      ⟨[], some sigSchemeTag⟩ envBody rfl rfl⟩

/-- C9: withError merges error_message into the current pending payload's
data and leaves the screen unchanged; it composes with goToScreen and with
close; and a withError call made before goToScreen or close is wiped out
by the later call, leaving no trace in the final payload. -/
theorem withError_spec :
    (∀ (b : FlowResponseBuilder) (m : Str),
      (b.withError m).responseData.screen = b.responseData.screen ∧
      (b.withError m).responseData.data =
        objSet b.responseData.data (chars "error_message") (.str m))
    ∧ (∀ (b : FlowResponseBuilder) (s : Str) (d : List (Str × Json)) (m : Str),
      ((b.goToScreen s (some d)).withError m).build =
        ⟨s, objSet d (chars "error_message") (.str m)⟩)
    ∧ (∀ (b : FlowResponseBuilder) (p : Option (List (Str × Json))) (m : Str),
      ((b.close p).withError m).build =
        ⟨chars "SUCCESS",
          objSet (b.close p).build.data (chars "error_message") (.str m)⟩)
    ∧ (∀ (b : FlowResponseBuilder) (s : Str) (d : Option (List (Str × Json))) (m : Str),
      ((b.withError m).goToScreen s d).build = (b.goToScreen s d).build)
    ∧ (∀ (b : FlowResponseBuilder) (p : Option (List (Str × Json))) (m : Str),
      ((b.withError m).close p).build = (b.close p).build) :=
  ⟨fun _ _ => ⟨rfl, rfl⟩, fun _ _ _ _ => rfl, fun _ _ _ => rfl,
    fun _ _ _ _ => rfl, fun _ _ _ => rfl⟩

/-- C10: a builder freshly created by respond(), with neither goToScreen
nor close ever called, builds exactly the empty-screen payload (screen ''
and empty data), and the dispatcher encrypts that payload and sends it
with status 200 when the handler returns such a builder. -/
theorem pristineBuilder_spec :
    (∀ r : FlowRequest, r.respond.build = ⟨[], []⟩)
    ∧ (∀ (ε : Type) (P : JsPrims) (opts : FlowEndpointOptions ε)
      (req : IncomingRequest) (bodyJson : Json) (res : DecryptionResult),
      P.parseJson req.rawBody = some bodyJson →
      sigCheck P opts bodyJson req = .ok true →
      decryptRequest P bodyJson opts.privateKey = .ok res →
      res.decryptedData.action ≠ chars "ping" →
      (jsTruthyOpt (objLookup (createFlowRequest res.decryptedData).data (chars "error")) &&
        (opts.acknowledgeErrors != some false)) = false →
      opts.onRequest (createFlowRequest res.decryptedData) =
        .ok (createFlowRequest res.decryptedData).respond →
      handlePost P opts req =
        ⟨200, encryptResponse P (ResponseData.toJson ⟨[], []⟩) res.aesKey res.iv,
          true, 1, []⟩) := by
  constructor
  · intro r; rfl
  · intro ε P opts req bodyJson res hparse hsig hdec hping hack honreq
    unfold handlePost
    simp [hparse, hsig, hdec, hping, hack, honreq]
    rfl

/-- C10 witness: a concrete dispatch whose handler returns the untouched
builder replies 200 with the encryption of the empty-screen payload. -/
theorem pristineBuilder_spec_witness :
    (createFlowRequest initRequest).respond.build = ⟨[], []⟩
    ∧ handlePost (toyPrimsOk initRequest) optsPristine ⟨[], none⟩ =
      ⟨200,
        encryptResponse (toyPrimsOk initRequest) (ResponseData.toJson ⟨[], []⟩)
          (List.replicate 16 0) [],
        true, 1, []⟩ :=
  ⟨pristineBuilder_spec.1 (createFlowRequest initRequest),
    pristineBuilder_spec.2 Unit (toyPrimsOk initRequest) optsPristine ⟨[], none⟩
      envBody ⟨initRequest, List.replicate 16 0, []⟩ rfl rfl rfl
      (by decide) rfl rfl⟩

/-- C8 counterexample: close with caller params binding flow_token makes
the spread override the original token, so the completion params carry the
caller's value instead of the builder's token t9. -/
theorem close_flowToken_override_counterexample :
    (FlowResponseBuilder.close (FlowResponseBuilder.create (chars "t9"))
        (some [(chars "flow_token", .str (chars "zzz"))])).build =
      ⟨chars "SUCCESS",
        [(chars "extension_message_response",
          .obj [(chars "params",
            .obj [(chars "flow_token", .str (chars "zzz"))])])]⟩
    ∧ chars "zzz" ≠ chars "t9" := ⟨rfl, by decide⟩

/-- C8 amended: for caller params with distinct keys none of which is
flow_token, the payload built after close is the completion shape whose
params carry flow_token mapped to the builder's token together with every
caller entry; a caller entry keyed flow_token would instead override the
token, as the counterexample shows. -/
theorem close_completionParams (t : Str) (p : List (Str × Json))
    (hnodup : (p.map Prod.fst).Nodup)
    (hft : ∀ kv ∈ p, kv.1 ≠ chars "flow_token") :
    (FlowResponseBuilder.close (FlowResponseBuilder.create t) (some p)).build =
      ⟨chars "SUCCESS",
        [(chars "extension_message_response",
          .obj [(chars "params",
            .obj (objSpread [(chars "flow_token", .str t)] p))])]⟩
    ∧ objLookup (objSpread [(chars "flow_token", .str t)] p) (chars "flow_token") =
        some (.str t)
    ∧ (∀ k v, objLookup p k = some v →
        objLookup (objSpread [(chars "flow_token", .str t)] p) k = some v) := by
  refine ⟨rfl, ?_, ?_⟩
  · rw [objSpread_lookup_of_not_mem p _ _ hft]
    simp [objLookup]
  · intro k v h
    exact objSpread_lookup_of_lookup p _ k v hnodup h

/-- C8 witness: close with orderId X on a builder for t9 yields completion
params binding flow_token to t9 and orderId to X. -/
theorem close_completionParams_witness :
    (FlowResponseBuilder.close (FlowResponseBuilder.create (chars "t9"))
        (some [(chars "orderId", .str (chars "X"))])).build =
      ⟨chars "SUCCESS",
        [(chars "extension_message_response",
          .obj [(chars "params",
            .obj (objSpread [(chars "flow_token", .str (chars "t9"))]
              [(chars "orderId", .str (chars "X"))]))])]⟩
    ∧ objLookup (objSpread [(chars "flow_token", .str (chars "t9"))]
        [(chars "orderId", .str (chars "X"))]) (chars "flow_token") =
        some (.str (chars "t9"))
    ∧ (∀ k v, objLookup [(chars "orderId", .str (chars "X"))] k = some v →
        objLookup (objSpread [(chars "flow_token", .str (chars "t9"))]
          [(chars "orderId", .str (chars "X"))]) k = some v) :=
  close_completionParams (chars "t9") [(chars "orderId", .str (chars "X"))]
    (by simp) (by decide)

/-- C5 counterexample: decryptRequest performs no validation relating
screen to action, so an envelope whose plaintext parses with action ping
and a screen decrypts successfully to exactly that payload. -/
theorem decryptRequest_screen_counterexample :
    decryptRequest (toyPrimsOk pingWithScreenRequest) envBody [] =
      .ok ⟨pingWithScreenRequest, List.replicate 16 0, []⟩
    ∧ pingWithScreenRequest.action = chars "ping"
    ∧ pingWithScreenRequest.screen = some (chars "X")
    ∧ pingWithScreenRequest.action ≠ chars "data_exchange" :=
  ⟨rfl, rfl, rfl, by decide⟩

/-- C5 amended: decryptRequest passes the parsed plaintext through without
any validation; every successfully decrypted payload is exactly a value of
the plaintext parser, with no constraint tying screen to action. -/
theorem decryptRequest_passthrough (P : JsPrims) (body : Json) (pk : Str)
    (r : DecryptionResult) (h : decryptRequest P body pk = .ok r) :
    ∃ s, P.parseFlowReq s = some r.decryptedData := by
  cases h1 : getStrField body (chars "encrypted_flow_data") with
  | error e => simp [decryptRequest, h1] at h
  | ok efd =>
    cases h2 : getStrField body (chars "encrypted_aes_key") with
    | error e => simp [decryptRequest, h1, h2] at h
    | ok eak =>
      cases h3 : getStrField body (chars "initial_vector") with
      | error e => simp [decryptRequest, h1, h2, h3] at h
      | ok ivB64 =>
        cases h4 : P.rsaOaepSha256Decrypt pk (base64Decode eak) with
        | none => simp [decryptRequest, h1, h2, h3, h4] at h
        | some aesKey =>
          cases h5 : P.aesGcmDecrypt aesKey (base64Decode ivB64)
              (dropLastN authTagLength (base64Decode efd))
              (takeLastN authTagLength (base64Decode efd)) with
          | none => simp [decryptRequest, h1, h2, h3, h4, h5] at h
          | some decrypted =>
            cases h6 : P.parseFlowReq (P.utf8Decode decrypted) with
            | none => simp [decryptRequest, h1, h2, h3, h4, h5, h6] at h
            | some dd =>
              simp [decryptRequest, h1, h2, h3, h4, h5, h6] at h
              subst h
              exact ⟨P.utf8Decode decrypted, h6⟩

/-- C5 amended witness: the pass-through applied to a concrete successful
decryption. -/
theorem decryptRequest_passthrough_witness :
    ∃ s, (toyPrimsOk pingWithScreenRequest).parseFlowReq s =
      some (⟨pingWithScreenRequest, List.replicate 16 0, []⟩ : DecryptionResult).decryptedData :=
  decryptRequest_passthrough (toyPrimsOk pingWithScreenRequest) envBody []
    ⟨pingWithScreenRequest, List.replicate 16 0, []⟩ rfl

/-- With a present header carrying the scheme tag, validateSignature is the
timing-safe buffer comparison of the header digest and the computed one. -/
theorem validateSignature_eq_compare (hmac : Str → Str → Str)
    (payload secret s : Str) (hnil : s ≠ [])
    (hpre : sigSchemeTag.isPrefixOf s = true) :
    validateSignature hmac payload (some s) secret =
      timingSafeEqual (utf8Encode (s.drop 7)) (utf8Encode (hmac secret payload)) := by
  simp [validateSignature, hnil, hpre]

/-- C2 amended: validateSignature returns true exactly on the header built
from the scheme tag and the exact computed digest; it returns false without
throwing for a missing header, an empty header, a missing tag, or a wrong
digest of the correct byte length; but when the tag is present and the rest
of the header has UTF-8 byte length other than the digest's 64,
crypto.timingSafeEqual throws instead of returning false. -/
theorem validateSignature_amended (hmac : Str → Str → Str) (payload secret : Str)
    (sig : Option Str)
    (hlen : (hmac secret payload).length = 64)
    (hascii : ∀ c ∈ hmac secret payload, c.toNat < 128) :
    (validateSignature hmac payload sig secret = .ok true ↔
      sig = some (sigSchemeTag ++ hmac secret payload))
    ∧ (sig = none → validateSignature hmac payload sig secret = .ok false)
    ∧ (∀ s, sig = some s → sigSchemeTag.isPrefixOf s = false →
        validateSignature hmac payload sig secret = .ok false)
    ∧ (∀ s, sig = some s → sigSchemeTag.isPrefixOf s = true →
        (utf8Encode (s.drop 7)).length ≠ 64 →
        validateSignature hmac payload sig secret = .error ())
    ∧ (∀ s, sig = some s → sigSchemeTag.isPrefixOf s = true →
        (utf8Encode (s.drop 7)).length = 64 → s.drop 7 ≠ hmac secret payload →
        validateSignature hmac payload sig secret = .ok false) := by
  have hDutf : utf8Encode (hmac secret payload) = (hmac secret payload).map Char.toNat :=
    utf8Encode_ascii _ hascii
  have hDlen : (utf8Encode (hmac secret payload)).length = 64 := by
    rw [hDutf, List.length_map, hlen]
  have h7 : sigSchemeTag.length = 7 := rfl
  refine ⟨⟨?_, ?_⟩, ?_, ?_, ?_, ?_⟩
  · intro h
    cases sig with
    | none => simp [validateSignature] at h
    | some s =>
      by_cases hnil : s = []
      · subst hnil
        simp [validateSignature] at h
      · by_cases hpre : sigSchemeTag.isPrefixOf s
        · rw [validateSignature_eq_compare hmac payload secret s hnil hpre] at h
          unfold timingSafeEqual at h
          by_cases hl : (utf8Encode (s.drop 7)).length =
              (utf8Encode (hmac secret payload)).length
          · rw [if_pos hl] at h
            have heq : utf8Encode (s.drop 7) = utf8Encode (hmac secret payload) :=
              of_decide_eq_true (Except.ok.inj h)
            have hs7 : s.drop 7 = hmac secret payload :=
              utf8Encode_inj_ascii _ _ hascii heq
            obtain ⟨t, ht⟩ := List.isPrefixOf_iff_prefix.mp hpre
            have hdrop : s.drop 7 = t := by rw [← ht, List.drop_left' h7]
            rw [← ht, ← hdrop, hs7]
          · rw [if_neg hl] at h
            exact Except.noConfusion h
        · rw [Bool.not_eq_true] at hpre
          simp [validateSignature, hnil, hpre] at h
  · intro h
    subst h
    have hnil : sigSchemeTag ++ hmac secret payload ≠ [] := by
      intro hc
      have := congrArg List.length hc
      simp [List.length_append] at this
      exact absurd this.1 (by decide)
    have hpre : sigSchemeTag.isPrefixOf (sigSchemeTag ++ hmac secret payload) = true :=
      List.isPrefixOf_iff_prefix.mpr (List.prefix_append _ _)
    rw [validateSignature_eq_compare _ _ _ _ hnil hpre]
    have hdrop : (sigSchemeTag ++ hmac secret payload).drop 7 = hmac secret payload :=
      List.drop_left' h7
    rw [hdrop]
    unfold timingSafeEqual
    rw [if_pos rfl]
    simp
  · intro h
    rw [h]
    rfl
  · intro s hs hpre
    rw [hs]
    by_cases hnil : s = []
    · simp [validateSignature, hnil]
    · simp [validateSignature, hnil, hpre]
  · intro s hs hpre hlem
    rw [hs]
    have hnil : s ≠ [] := by
      intro hc
      subst hc
      exact absurd hpre (by decide)
    rw [validateSignature_eq_compare _ _ _ _ hnil hpre]
    unfold timingSafeEqual
    rw [if_neg (fun hc => hlem (hc.trans hDlen))]
  · intro s hs hpre hl64 hne
    rw [hs]
    have hnil : s ≠ [] := by
      intro hc
      subst hc
      exact absurd hpre (by decide)
    rw [validateSignature_eq_compare _ _ _ _ hnil hpre]
    unfold timingSafeEqual
    rw [if_pos (hl64.trans hDlen.symm)]
    rw [decide_eq_false (fun hc => hne (utf8Encode_inj_ascii _ _ hascii hc))]

/-- C2 counterexample: on the header 'sha256=' with an empty digest — a
tampered header the claim says yields false without throwing — the
comparison throws, because crypto.timingSafeEqual rejects buffers of
different byte lengths; the computed digest here is a well-formed 64-char
lowercase hex value. -/
theorem validateSignature_throws_counterexample :
    constHexDigest.length = 64
    ∧ (∀ c ∈ constHexDigest, c.isDigit ∨ ('a' ≤ c ∧ c ≤ 'f'))
    ∧ validateSignature toyHmacConst (chars "body") (some sigSchemeTag)
        (chars "secret") = .error () :=
  ⟨by decide, by decide, rfl⟩

/-- C2 amended witness: the exact well-formed header validates. -/
theorem validateSignature_amended_witness :
    validateSignature toyHmacConst (chars "body")
      (some (sigSchemeTag ++ constHexDigest)) (chars "secret") = .ok true :=
  (validateSignature_amended toyHmacConst (chars "body") (chars "secret")
    (some (sigSchemeTag ++ constHexDigest)) (by decide) (by decide)).1.mpr rfl

/-- C3: the response round-trip. Whenever the cipher round-trips on the
payload's serialized bytes under the flipped IV (with its tag 16 bytes of
byte values, as AES-128-GCM produces) and the serialization round-trips
through UTF-8 and JSON parsing, decrypting the output of encryptResponse —
base64-decoding, splitting the trailing 16-byte tag, and AES-GCM under the
context's key and the flipped IV — yields exactly the payload. -/
theorem encryptResponse_roundTrip (P : JsPrims) (payload : Json)
    (key iv ct tag : List Nat)
    (henc : P.aesGcmEncrypt key (flipIv iv)
      (utf8Encode (P.stringifyJson payload)) = (ct, tag))
    (htag : tag.length = 16)
    (hbytes : ∀ b ∈ ct ++ tag, b < 256)
    (hdec : P.aesGcmDecrypt key (flipIv iv) ct tag =
      some (utf8Encode (P.stringifyJson payload)))
    (hutf : P.utf8Decode (utf8Encode (P.stringifyJson payload)) =
      P.stringifyJson payload)
    (hparse : P.parseJson (P.stringifyJson payload) = some payload) :
    decryptResponse P (encryptResponse P payload key iv) key iv = some payload := by
  simp only [encryptResponse, decryptResponse]
  rw [henc]
  rw [base64_roundTrip _ hbytes,
    dropLastN_append authTagLength ct tag htag,
    takeLastN_append authTagLength ct tag htag,
    hdec]
  simp only [hutf, hparse]

/-- C3 witness: a concrete payload, key and IV round-trip through
encryptResponse and the described decryption. -/
theorem encryptResponse_roundTrip_witness :
    decryptResponse toyPrimsC3
      (encryptResponse toyPrimsC3 payloadC3 (List.replicate 16 1) (List.replicate 12 2))
      (List.replicate 16 1) (List.replicate 12 2) = some payloadC3 :=
  encryptResponse_roundTrip toyPrimsC3 payloadC3 (List.replicate 16 1)
    (List.replicate 12 2) (utf8Encode (chars "s")) (List.replicate 16 0)
    rfl rfl (by decide) rfl rfl rfl

/-- C1: the dispatcher's signature check recomputes the HMAC over the
re-serialization JSON.stringify(req.body), not over the raw received
bytes: for the raw body ' 0' (which parses to the number 0 and
re-serializes as '0') carrying the header that is the valid signature over
those raw bytes, validateSignature over the raw bytes accepts, yet the
dispatcher rejects the request with 401. -/
theorem signature_over_reserialization :
    validateSignature toyHmacC1 (chars " 0")
      (some (sigSchemeTag ++ List.replicate 64 'a')) (chars "secret") = .ok true
    ∧ toyHmacC1 (chars "secret") (chars " 0") = List.replicate 64 'a'
    ∧ handlePost toyPrimsC1 optsWithSecret
        ⟨chars " 0", some (sigSchemeTag ++ List.replicate 64 'a')⟩ =
      ⟨401, chars "Invalid signature", false, 0, []⟩ :=
  ⟨rfl, rfl, rfl⟩
